import Mathlib

/-!
Shallow embedding of the FireBridgeCAM geometry-extraction pipeline:
the DXF loader (`dxf_parser.py`), the SVG loader (`svg_parser.py`) and the
package-level fallbacks (`parsers/__init__.py`).

Numbers are modelled exactly: the scalar type `K` is an ordered field
(instantiated at `ℚ` for executable checks and at `ℝ` where trigonometric
identities are needed).  Python code that may raise is modelled with
`Option`: `none` stands for "this call raised and the surrounding handler
caught it".  External libraries (ezdxf, svgpathtools) appear as abstract
data carried by the entity records: an entity's adaptive `flattening(tol)`
result, a spline's `construction_tool()` evaluator, an SVG path object's
`length`, `point(t)` and `isclosed()` results.
-/

namespace FireBridge

variable {K : Type} [LinearOrderedField K]

/-- A 2-D point, `(x, y)`. -/
abbrev Pt (K : Type) := K × K

/-- Python `int(x)` on a real number: truncation toward zero. -/
def pyTrunc [FloorRing K] (x : K) : ℤ :=
  if 0 ≤ x then ⌊x⌋ else ⌈x⌉

/-- Python `str.strip()` on a character list. -/
def trimChars (l : List Char) : List Char :=
  ((l.dropWhile Char.isWhitespace).reverse.dropWhile Char.isWhitespace).reverse

/-- Python `str.lower()` on a character list. -/
def lowerChars (l : List Char) : List Char := l.map Char.toLower

/-- The first point of a list, `pts[0]` in the Python (the code only reads it
when `len(pts) ≥ 2`; the default `(0, 0)` is never observed there). -/
def firstP (pts : List (Pt K)) : Pt K := pts.headD (0, 0)

/-- The last point of a list, `pts[-1]` in the Python. -/
def lastP (pts : List (Pt K)) : Pt K := pts.getLastD (0, 0)

/-- The output record assembled by both loaders: `{"points": ..., "closed":
..., "layer": ..., "color": ..., "source": ...}`. -/
structure PathRec (K : Type) where
  points : List (Pt K)
  closed : Bool
  layer : Option String
  color : Option String
  source : String
deriving DecidableEq

/-! ## DXF loader (`dxf_parser.py`) -/

/-- Trigonometric interface used by the arc and circle fallbacks
(`math.cos`, `math.sin`, `math.pi`); instantiated with the real functions
for the analytic theorems and with stub functions for executable checks
that do not exercise trigonometry. -/
structure Trig (K : Type) where
  cos : K → K
  sin : K → K
  pi : K

/-- Real trigonometry, the intended reading of `math.cos` etc. -/
noncomputable def realTrig : Trig ℝ := ⟨Real.cos, Real.sin, Real.pi⟩

/-- Stub trigonometry over `ℚ`, used only by executable witnesses whose
entities never reach a trigonometric fallback. -/
def ratTrig : Trig ℚ := ⟨fun _ => 1, fun _ => 0, 0⟩

/-- One modelspace entity, with the data each `dxf_parser.py` branch reads.
A constructor's payload is the entity-specific attribute set; external
evaluators appear as functions. -/
inductive DxfKind (K : Type) where
  | line (s e : Pt K)
  | arc (c : Pt K) (r a1 a2 : K)
  | circle (c : Pt K) (r : K)
  | ellipse (approx : List (Pt K))
  | spline (tool : Option (K → Option (Pt K))) (cps : List (Pt K))
  | poly (lw : Bool) (verts : List (Pt K))
  | other (t : String)

/-- The entity's `dxftype()` string for each constructor. -/
def kindStr : DxfKind K → String
  | .line _ _ => "LINE"
  | .arc _ _ _ _ => "ARC"
  | .circle _ _ => "CIRCLE"
  | .ellipse _ => "ELLIPSE"
  | .spline _ _ => "SPLINE"
  | .poly lw _ => if lw then "LWPOLYLINE" else "POLYLINE"
  | .other t => t

/-- A DXF entity as the loader sees it.  `flattening = none` models an
`entity.flattening(tol)` call that raises; `kind = none` models a
`dxftype()` call that raises; the remaining `Option` fields model
unreadable attributes. -/
structure DxfEntity (K : Type) where
  flattening : Option (List (Pt K))
  kind : Option (DxfKind K)
  flags : Option ℕ
  closedAttr : Option Bool
  layer : Option String
  color : Option ℤ

/-- Model of `dxf_parser._unit_scale_to_mm` (lines 16-22): empty token and
any token not starting with "in" (case-insensitively, after stripping) map
to 1; tokens starting with "in" map to 25.4 = 127/5. -/
def dxf_unit_scale_to_mm (units : String) : K :=
  if units = "" then 1
  else if (lowerChars (trimChars units.data)).take 2 = "in".data then 127 / 5
  else 1

/-- ARC fallback (lines 48-59): normalize the end angle, take
`n = max(12, int(sweep / max(tol, 1e-4)))` uniform steps, inclusive
endpoints, points on the circle of center `c` and radius `r`. -/
def arcSamples [FloorRing K] (tr : Trig K) (c : Pt K) (r a1 a2 tol : K) :
    List (Pt K) :=
  let a2' := if a2 < a1 then a2 + 360 else a2
  let sw := a2' - a1
  let n : ℕ := (max 12 (pyTrunc (sw / max tol (1 / 10000)))).toNat
  (List.range (n + 1)).map (fun (i : ℕ) =>
    let ang := (a1 + sw * (i : K) / (n : K)) * tr.pi / 180
    (c.1 + r * tr.cos ang, c.2 + r * tr.sin ang))

/-- CIRCLE fallback (lines 61-68): `n = 64`, angles `2*pi*i/n` for
`i = 0, ..., n` (inclusive endpoints, hence 65 sample points). -/
def circleSamples (tr : Trig K) (c : Pt K) (r : K) : List (Pt K) :=
  (List.range (64 + 1)).map (fun (i : ℕ) =>
    let ang := 2 * tr.pi * (i : K) / 64
    (c.1 + r * tr.cos ang, c.2 + r * tr.sin ang))

/-- SPLINE fallback sampling (lines 78-85): `n = 128`, evaluate the
construction tool at `t = i/n` for `i = 0, ..., n` (129 parameters);
a sample whose evaluation raises is skipped. -/
def splineSamples (ev : K → Option (Pt K)) : List (Pt K) :=
  (List.range (128 + 1)).filterMap (fun (i : ℕ) => ev ((i : K) / 128))

/-- SPLINE fallback (lines 76-95): if `construction_tool()` raises the
whole branch raises (caught at line 117, yielding `[]`); otherwise sample,
and if no sample succeeded fall back to the control points read so far. -/
def splineFallback (tool : Option (K → Option (Pt K))) (cps : List (Pt K)) :
    List (Pt K) :=
  match tool with
  | none => []
  | some ev =>
    match splineSamples ev with
    | [] => cps
    | p :: ps => p :: ps

/-- The type-specific fallback tiers of `_flatten_entity` (lines 37-120).
The polyline branch retries `entity.flattening(tol)` (lines 99-103) and
otherwise enumerates the readable vertices. -/
def fallbackFlatten [FloorRing K] (tr : Trig K) (e : DxfEntity K) (tol : K) :
    List (Pt K) :=
  match e.kind with
  | none => []
  | some (.line s t) => [s, t]
  | some (.arc c r a1 a2) => arcSamples tr c r a1 a2 tol
  | some (.circle c r) => circleSamples tr c r
  | some (.ellipse approx) => approx
  | some (.spline tool cps) => splineFallback tool cps
  | some (.poly _ verts) =>
    match e.flattening with
    | some (p :: ps) => p :: ps
    | _ => verts
  | some (.other _) => []

/-- Model of `_flatten_entity` (lines 25-120): the adaptive flattening
result is used when it exists and is non-empty, else the type-specific
fallback runs. -/
def flatten_entity [FloorRing K] (tr : Trig K) (e : DxfEntity K) (tol : K) :
    List (Pt K) :=
  match e.flattening with
  | some (p :: ps) => p :: ps
  | _ => fallbackFlatten tr e tol

/-- Ring closing used by the closed branches of the loader (lines 154-156,
164-165, 172-173): when classified closed and the first point differs from
the last, append a duplicate of the first point. -/
def forceClose [DecidableEq K] (closed : Bool) (pts : List (Pt K)) :
    List (Pt K) :=
  if closed = true ∧ firstP pts ≠ lastP pts then pts ++ [firstP pts] else pts

/-- Polyline closure (lines 158-163): bit 0 of the `flags` attribute when
readable, else geometric equality of the endpoints. -/
def polyClosedFlag [DecidableEq K] (flags : Option ℕ) (pts : List (Pt K)) :
    Bool :=
  match flags with
  | some f => decide (f % 2 = 1)
  | none => decide (firstP pts = lastP pts)

/-- Spline closure (lines 167-171): the `closed` attribute when readable,
else geometric equality of the endpoints. -/
def splineClosedFlag [DecidableEq K] (closedAttr : Option Bool)
    (pts : List (Pt K)) : Bool :=
  match closedAttr with
  | some b => b
  | none => decide (firstP pts = lastP pts)

/-- Closure classification of `load_dxf` (lines 148-176), keyed on the
`dxftype()` string: circles and ellipses are always closed; the polyline
family reads bit 0 of `flags` (geometric equality when unreadable); splines
read the `closed` attribute (geometric equality when unreadable); every
other type is closed exactly when the first point equals the last, with no
forced closing. -/
def classifyDxf [DecidableEq K] (flags : Option ℕ) (closedAttr : Option Bool)
    (t : String) (pts : List (Pt K)) : Bool × List (Pt K) :=
  if t = "CIRCLE" ∨ t = "ELLIPSE" then
    (true, forceClose true pts)
  else if t = "LWPOLYLINE" ∨ t = "POLYLINE" then
    (polyClosedFlag flags pts, forceClose (polyClosedFlag flags pts) pts)
  else if t = "SPLINE" then
    (splineClosedFlag closedAttr pts,
      forceClose (splineClosedFlag closedAttr pts) pts)
  else
    (decide (firstP pts = lastP pts), pts)

/-- The per-entity body of the `load_dxf` loop (lines 138-200): skip when
`dxftype()` raises, flatten, drop with fewer than two points, classify and
force-close, default the layer to "0" and keep only positive color codes,
scale each coordinate by the unit factor, and assemble the record. -/
def processEntity [DecidableEq K] [FloorRing K] (tr : Trig K)
    (scale tol : K) (e : DxfEntity K) : Option (PathRec K) :=
  match e.kind with
  | none => none
  | some k =>
    let pts := flatten_entity tr e tol
    if pts.length < 2 then none
    else
      let cp := classifyDxf e.flags e.closedAttr (kindStr k) pts
      let layer : String :=
        match e.layer with
        | some s => s
        | none => "0"
      let color : Option String :=
        match e.color with
        | some c => if 0 < c then some (toString c) else none
        | none => none
      some { points := cp.2.map (fun q => (q.1 * scale, q.2 * scale)),
             closed := cp.1,
             layer := some layer,
             color := color,
             source := "dxf" }

/-- Model of `load_dxf` (lines 123-202).  `hasEzdxf = false` models a
failed `import ezdxf`; `doc = none` models `ezdxf.readfile` or
`modelspace()` raising.  The tolerance is `0.25 / scale`. -/
def load_dxf [DecidableEq K] [FloorRing K] (tr : Trig K) (hasEzdxf : Bool)
    (doc : Option (List (DxfEntity K))) (units : String) : List (PathRec K) :=
  match hasEzdxf with
  | false => []
  | true =>
    let scale := dxf_unit_scale_to_mm (K := K) units
    let tol := (1 / 4 : K) / scale
    match doc with
    | none => []
    | some es => es.filterMap (processEntity tr scale tol)

/-- Package-level fallback `load_dxf` from `parsers/__init__.py` (used when
the import of the real parser module fails): always the empty list. -/
def pkg_load_dxf (_filename _units : String) : List (PathRec K) := []

/-- Package-level fallback `load_svg` from `parsers/__init__.py`. -/
def pkg_load_svg (_filepath : String) : List (PathRec K) := []

/-! ## SVG loader (`svg_parser.py`) -/

/-- Model of `svg_parser._unit_scale_to_mm` (lines 35-59): case-insensitive
table with 25.4 mm per inch, 10 mm per cm and 25.4/96 mm per pixel;
`none` models a `None` argument. -/
def svg_unit_scale_to_mm (unit : Option String) : K :=
  match unit with
  | none => 1
  | some s =>
    if s = "" then 1
    else
      let u := lowerChars (trimChars s.data)
      if u = "mm".data ∨ u = "millimeter".data ∨ u = "millimeters".data then 1
      else if u = "inch".data ∨ u = "inches".data ∨ u = "in".data then 127 / 5
      else if u = "cm".data ∨ u = "centimeter".data ∨ u = "centimeters".data
        then 10
      else if u = "px".data ∨ u = "pixels".data ∨ u = "pixel".data then 127 / 480
      else 1

/-- Spec-side unit table, written from the claim's words rather than the
source: the stripped, lowercased token is looked up in the four spelling
families, and every other or absent token means millimeters already.  To
be compared with `svg_unit_scale_to_mm`. -/
def svg_table_spec (unit : Option String) : K :=
  match unit with
  | none => 1
  | some s =>
    let u := lowerChars (trimChars s.data)
    if u ∈ ["mm".data, "millimeter".data, "millimeters".data] then 1
    else if u ∈ ["inch".data, "inches".data, "in".data] then 127 / 5
    else if u ∈ ["cm".data, "centimeter".data, "centimeters".data] then 10
    else if u ∈ ["px".data, "pixels".data, "pixel".data] then 127 / 480
    else 1

/-- Spec-side test of the claim's words "token starting with in": the
first two characters of the stripped, lowercased token are `i` and `n`. -/
def startsWithIn (l : List Char) : Bool :=
  match l with
  | c1 :: c2 :: _ => c1 = 'i' && c2 = 'n'
  | _ => false

/-- Spec-side DXF conversion, written from the amended claim's words: only
tokens starting with "in" (case-insensitively, after stripping) mean
inches; everything else, the empty token included, means millimeters
already.  To be compared with `dxf_unit_scale_to_mm`. -/
def dxf_unit_spec (units : String) : K :=
  if startsWithIn (lowerChars (trimChars units.data)) then 127 / 5 else 1

/-- An svgpathtools path object as the loader observes it: its segment
count `len(path_obj)`, the result of `path.length(error=1e-4)` (`none` when
it raises), the curve evaluation `path.point(t)` (`none` when it raises at
that parameter) and the result of `path.isclosed()` (`none` when it
raises). -/
structure SvgPath (K : Type) where
  nSegs : ℕ
  lengthEst : Option K
  point : K → Option (Pt K)
  isclosed : Option Bool

/-- Model of `_flatten_path_points` (lines 65-93): clamp the length
estimate, take `segs = max(64, int(length / max(tol_mm, 1e-3)))` samples at
`t = i/segs` for `i = 0, ..., segs`, skipping parameters where `point`
raises. -/
def flatten_path_points [FloorRing K] (hasSvgtools : Bool)
    (p : Option (SvgPath K)) (tolmm : K) : List (Pt K) :=
  match hasSvgtools, p with
  | false, _ => []
  | true, none => []
  | true, some path =>
    let len : K :=
      match path.lengthEst with
      | some l => max l (1 / 1000)
      | none => 1
    let segs : ℕ := (max 64 (pyTrunc (len * 1 / max tolmm (1 / 1000)))).toNat
    (List.range (segs + 1)).filterMap (fun (i : ℕ) =>
      path.point ((i : K) / (segs : K)))

/-- A character at which `re.split` with a move-command lookahead cuts. -/
def isMoveChar (c : Char) : Bool := c = 'M' || c = 'm'

/-- Worker for the lookahead split: `acc` is the fragment being built; a
move character closes the current fragment and starts a new one. -/
def reSplitMovesAux : List Char → List Char → List (List Char)
  | [], acc => [acc]
  | c :: rest, acc =>
    if isMoveChar c then acc :: reSplitMovesAux rest [c]
    else reSplitMovesAux rest (acc ++ [c])

/-- Splitting of the stripped command string at every position directly
before an `M` or `m`, as `re.split` with a lookahead does (a leading empty
fragment appears when the string starts with a move command). -/
def reSplitMoves (l : List Char) : List (List Char) := reSplitMovesAux l []

/-- Model of `_split_path_by_moves` (lines 99-114): empty input gives no
fragments; otherwise split the stripped string before each move command,
strip each fragment and drop the fragments that were whitespace only. -/
def split_path_by_moves (d : List Char) : List (List Char) :=
  if d = [] then []
  else ((reSplitMoves (trimChars d)).map trimChars).filter (fun p => p ≠ [])

/-- Test from line 194 of the loader: `subpath_str.strip().upper()` ends
with `"Z"`. -/
def endsWithZ (sub : List Char) : Bool :=
  match ((trimChars sub).map Char.toUpper).getLast? with
  | some c => c = 'Z'
  | none => false

/-- Attribute lookup on the key/value pairs the loader's attribute pattern
found, with the Python dict's last-occurrence-wins overwrite. -/
def attrGet (attrs : List (String × String)) (k : String) : Option String :=
  ((attrs.filter (fun a => a.1 = k)).getLast?).map (fun a => a.2)

/-- Flattening tolerance chosen from the externally supplied units mode
(lines 149-157): 0.05 in "metric" mode (the default when the setting is
absent, empty or unreadable), 0.002 otherwise. -/
def svgTol (unitsMode : Option String) : K :=
  let mode : String :=
    match unitsMode with
    | none => "metric"
    | some "" => "metric"
    | some s => s
  if mode.data.take 3 = "met".data then 1 / 20 else 1 / 500

/-- Closure decision for one subpath (lines 190-205): a trailing close
command wins; else the curve's own `isclosed()`; only when that raises, the
geometric fallback with absolute tolerance 1e-6 on both coordinates (the
code guards it by `len(pts) >= 2`, which the caller has established). -/
def svgClosedFlag [DecidableEq K] (sub : List Char) (isclosed : Option Bool)
    (pts : List (Pt K)) : Bool :=
  if endsWithZ sub then true
  else
    match isclosed with
    | some b => b
    | none =>
      decide (2 ≤ pts.length ∧
        |(firstP pts).1 - (lastP pts).1| < 1 / 1000000 ∧
        |(firstP pts).2 - (lastP pts).2| < 1 / 1000000)

/-- Ring closing of the SVG loader (lines 207-209). -/
def closeSvg [DecidableEq K] (closed : Bool) (pts : List (Pt K)) :
    List (Pt K) :=
  if closed = true ∧ 2 ≤ pts.length ∧ firstP pts ≠ lastP pts then
    pts ++ [firstP pts]
  else pts

/-- The per-subpath body of the `load_svg` loop (lines 173-229): skip
whitespace-only fragments, fragments whose parse raises and empty parses;
flatten, drop with fewer than two points; decide closure, force-close,
scale by the fixed pixel factor, and read `id` and `stroke` as layer and
color. -/
def processSubpath [DecidableEq K] [FloorRing K]
    (parse : List Char → Option (SvgPath K)) (tolmm : K)
    (attrs : List (String × String)) (sub : List Char) : Option (PathRec K) :=
  if trimChars sub = [] then none
  else
    match parse sub with
    | none => none
    | some pobj =>
      if pobj.nSegs = 0 then none
      else
        let pts := flatten_path_points true (some pobj) tolmm
        if pts.length < 2 then none
        else
          let closed : Bool := svgClosedFlag sub pobj.isclosed pts
          let pts2 := closeSvg closed pts
          let pxs := svg_unit_scale_to_mm (K := K) (some "px")
          let mmPts := pts2.map (fun q => (q.1 * pxs, q.2 * pxs))
          let color : Option String :=
            match attrGet attrs "stroke" with
            | none => none
            | some c => if c = "none" ∨ c = "" then none else some c
          some { points := mmPts,
                 closed := closed,
                 layer := attrGet attrs "id",
                 color := color,
                 source := "svg" }

/-- The per-element body of the `load_svg` loop (lines 159-229): skip
elements without a non-empty `d` attribute, split `d` into subpaths and
process each. -/
def elemPaths [DecidableEq K] [FloorRing K]
    (parse : List Char → Option (SvgPath K)) (tolmm : K)
    (attrs : List (String × String)) : List (PathRec K) :=
  match attrGet attrs "d" with
  | none => []
  | some d =>
    if d = "" then []
    else (split_path_by_moves d.toList).filterMap (processSubpath parse tolmm attrs)

/-- Model of `load_svg` (lines 120-231).  `hasSvgtools = false` models a
failed `import svgpathtools`; `content = none` models an unreadable file;
`content = some elems` carries the attribute lists of the `<path>` elements
the regular-expression scan found, in document order. -/
def load_svg [DecidableEq K] [FloorRing K]
    (parse : List Char → Option (SvgPath K)) (hasSvgtools : Bool)
    (content : Option (List (List (String × String))))
    (unitsMode : Option String) : List (PathRec K) :=
  match hasSvgtools with
  | false => []
  | true =>
    match content with
    | none => []
    | some elems =>
      let tol := svgTol (K := K) unitsMode
      elems.flatMap (fun attrs => elemPaths parse tol attrs)

/-! ## Helper lemmas about the point-list operations -/

theorem firstP_append_single (pts : List (Pt K)) (x : Pt K) (h : pts ≠ []) :
    firstP (pts ++ [x]) = firstP pts := by
  cases pts with
  | nil => exact absurd rfl h
  | cons a t => rfl

theorem lastP_append_single (pts : List (Pt K)) (x : Pt K) :
    lastP (pts ++ [x]) = x := by
  simp [lastP, List.getLastD_concat]

theorem getLastD_map {α β : Type} (f : α → β) (l : List α) (d : α) :
    (l.map f).getLastD (f d) = f (l.getLastD d) := by
  induction l generalizing d with
  | nil => rfl
  | cons a t ih => simp only [List.map_cons, List.getLastD_cons, ih]

theorem firstP_map (f : Pt K → Pt K) (pts : List (Pt K)) (h : pts ≠ []) :
    firstP (pts.map f) = f (firstP pts) := by
  cases pts with
  | nil => exact absurd rfl h
  | cons a t => rfl

theorem lastP_map (f : Pt K → Pt K) (pts : List (Pt K)) (h : pts ≠ []) :
    lastP (pts.map f) = f (lastP pts) := by
  cases pts with
  | nil => exact absurd rfl h
  | cons a t =>
    simp only [lastP, List.map_cons, List.getLastD_cons]
    exact getLastD_map f t a

theorem length_le_forceClose [DecidableEq K] (c : Bool) (pts : List (Pt K)) :
    pts.length ≤ (forceClose c pts).length := by
  unfold forceClose
  split
  · simp
  · exact le_rfl

theorem forceClose_closes [DecidableEq K] (pts : List (Pt K)) (h : pts ≠ []) :
    firstP (forceClose true pts) = lastP (forceClose true pts) := by
  by_cases he : firstP pts = lastP pts
  · rw [forceClose, if_neg (fun hc => hc.2 he)]
    exact he
  · rw [forceClose, if_pos ⟨rfl, he⟩, firstP_append_single _ _ h,
      lastP_append_single]

theorem forceClose_spec [DecidableEq K] (b : Bool) (pts : List (Pt K))
    (h2 : 2 ≤ pts.length) :
    2 ≤ (forceClose b pts).length ∧
      (b = true → firstP (forceClose b pts) = lastP (forceClose b pts)) := by
  have hne : pts ≠ [] := by
    intro h0; rw [h0] at h2; simp at h2
  refine ⟨le_trans h2 (length_le_forceClose b pts), fun hb => ?_⟩
  subst hb
  exact forceClose_closes pts hne

theorem classifyDxf_spec [DecidableEq K] (flags : Option ℕ)
    (closedAttr : Option Bool) (t : String) (pts : List (Pt K))
    (h2 : 2 ≤ pts.length) :
    2 ≤ (classifyDxf flags closedAttr t pts).2.length ∧
      ((classifyDxf flags closedAttr t pts).1 = true →
        firstP (classifyDxf flags closedAttr t pts).2 =
          lastP (classifyDxf flags closedAttr t pts).2) := by
  have hne : pts ≠ [] := by
    intro h0; rw [h0] at h2; simp at h2
  unfold classifyDxf
  split
  · exact ⟨le_trans h2 (length_le_forceClose _ _), fun _ =>
      forceClose_closes pts hne⟩
  · split
    · exact forceClose_spec _ pts h2
    · split
      · exact forceClose_spec _ pts h2
      · exact ⟨h2, fun hc => of_decide_eq_true hc⟩

theorem processEntity_spec [DecidableEq K] [FloorRing K] (tr : Trig K)
    (scale tol : K) (e : DxfEntity K) (rec : PathRec K)
    (h : processEntity tr scale tol e = some rec) :
    2 ≤ rec.points.length ∧
      (rec.closed = true → firstP rec.points = lastP rec.points) := by
  unfold processEntity at h
  cases hk : e.kind with
  | none => rw [hk] at h; exact absurd h (by simp)
  | some k =>
    rw [hk] at h
    dsimp only at h
    by_cases hlen : (flatten_entity tr e tol).length < 2
    · rw [if_pos hlen] at h; exact absurd h (by simp)
    · rw [if_neg hlen] at h
      push_neg at hlen
      obtain rfl := (Option.some.inj h).symm
      set pts := flatten_entity tr e tol with hpts
      have hcs := classifyDxf_spec e.flags e.closedAttr (kindStr k) pts hlen
      have hne : (classifyDxf e.flags e.closedAttr (kindStr k) pts).2 ≠ [] := by
        intro h0
        have h1 := hcs.1
        rw [h0] at h1
        simp at h1
      constructor
      · simpa using hcs.1
      · intro hcl
        dsimp at hcl ⊢
        rw [firstP_map _ _ hne, lastP_map _ _ hne, hcs.2 hcl]

theorem closeSvg_spec [DecidableEq K] (b : Bool) (pts : List (Pt K))
    (h2 : 2 ≤ pts.length) :
    2 ≤ (closeSvg b pts).length ∧
      (b = true → firstP (closeSvg b pts) = lastP (closeSvg b pts)) := by
  have hne : pts ≠ [] := by
    intro h0; rw [h0] at h2; simp at h2
  constructor
  · unfold closeSvg
    split
    · simp only [List.length_append, List.length_cons, List.length_nil]
      omega
    · exact h2
  · intro hb
    subst hb
    by_cases he : firstP pts = lastP pts
    · rw [closeSvg, if_neg (fun hc => hc.2.2 he)]
      exact he
    · rw [closeSvg, if_pos ⟨rfl, h2, he⟩, firstP_append_single _ _ hne,
        lastP_append_single]

theorem processSubpath_spec [DecidableEq K] [FloorRing K]
    (parse : List Char → Option (SvgPath K)) (tolmm : K)
    (attrs : List (String × String)) (sub : List Char) (rec : PathRec K)
    (h : processSubpath parse tolmm attrs sub = some rec) :
    2 ≤ rec.points.length ∧
      (rec.closed = true → firstP rec.points = lastP rec.points) := by
  unfold processSubpath at h
  by_cases ht : trimChars sub = []
  · rw [if_pos ht] at h; exact absurd h (by simp)
  · rw [if_neg ht] at h
    cases hp : parse sub with
    | none => rw [hp] at h; exact absurd h (by simp)
    | some pobj =>
      rw [hp] at h
      dsimp only at h
      by_cases hn : pobj.nSegs = 0
      · rw [if_pos hn] at h; exact absurd h (by simp)
      · rw [if_neg hn] at h
        by_cases hlen : (flatten_path_points true (some pobj) tolmm).length < 2
        · rw [if_pos hlen] at h; exact absurd h (by simp)
        · rw [if_neg hlen] at h
          push_neg at hlen
          obtain rfl := (Option.some.inj h).symm
          set pts := flatten_path_points true (some pobj) tolmm with hpts
          have hcs := closeSvg_spec (svgClosedFlag sub pobj.isclosed pts) pts hlen
          have hne : closeSvg (svgClosedFlag sub pobj.isclosed pts) pts ≠ [] := by
            intro h0
            have h1 := hcs.1
            rw [h0] at h1
            simp at h1
          constructor
          · simpa using hcs.1
          · intro hcl
            dsimp at hcl ⊢
            rw [firstP_map _ _ hne, lastP_map _ _ hne, hcs.2 hcl]

/-! ## Sample inputs for executable checks -/

/-- Default record used to read the head of a computed result list. -/
def dRec : PathRec ℚ := ⟨[], false, none, none, ""⟩

/-- Sample DXF entity: an unclassified entity whose adaptive flattening
already closes geometrically. -/
def sampleLoop : DxfEntity ℚ :=
  ⟨some [(0, 0), (1, 1), (0, 0)], some (.other "E"), none, none, none, none⟩

/-- Sample DXF entity whose `dxftype()` raises. -/
def sampleBad : DxfEntity ℚ :=
  ⟨none, none, none, none, none, none⟩

/-! ## Claim C3 — unit conversion -/

/-- Claim C3 is false on the code: the DXF loader's own unit conversion
maps "cm" to 1, not to the claimed 10. -/
theorem C3_counterexample :
    dxf_unit_scale_to_mm (K := ℚ) "cm" = 1 ∧
      dxf_unit_scale_to_mm (K := ℚ) "cm" ≠ 10 := by
  constructor <;> decide

theorem startsWithIn_iff_take (l : List Char) :
    startsWithIn l = true ↔ l.take 2 = "in".data := by
  have hd : "in".data = ['i', 'n'] := rfl
  rw [hd]
  cases l with
  | nil =>
    have h0 : startsWithIn [] = false := rfl
    rw [h0]
    simp
  | cons c1 t =>
    cases t with
    | nil =>
      have h1 : startsWithIn (c1 :: []) = false := rfl
      rw [h1]
      simp [List.take]
    | cons c2 rest =>
      have h2 : startsWithIn (c1 :: c2 :: rest) =
          (decide (c1 = 'i') && decide (c2 = 'n')) := rfl
      rw [h2]
      simp [List.take_succ_cons, List.take_zero, Bool.and_eq_true,
        decide_eq_true_eq]

/-- C3 (amended): for every token, the SVG loader's conversion equals the
claimed case-insensitive table (`svg_table_spec`, written from the claim's
words) and never fails; the DXF loader's own conversion is total but, for
every token, maps exactly the tokens starting with "in"
(case-insensitively, after stripping) to 25.4 and every other, unknown or
absent token — including "cm" and "px" — to 1 (`dxf_unit_spec`).  Sample
evaluations of every spelling family, the unknown-token default and the
two-value range of the DXF conversion follow. -/
theorem C3_unit_scale_amended {K : Type} [LinearOrderedField K] :
    (∀ unit : Option String,
       svg_unit_scale_to_mm (K := K) unit = svg_table_spec unit) ∧
    (∀ u : String, dxf_unit_scale_to_mm (K := K) u = dxf_unit_spec u) ∧
    (svg_unit_scale_to_mm (K := K) (some "mm") = 1 ∧
     svg_unit_scale_to_mm (K := K) (some "MM") = 1 ∧
     svg_unit_scale_to_mm (K := K) (some "Millimeter") = 1 ∧
     svg_unit_scale_to_mm (K := K) (some "Millimeters") = 1 ∧
     svg_unit_scale_to_mm (K := K) (some "in") = 127 / 5 ∧
     svg_unit_scale_to_mm (K := K) (some "Inches") = 127 / 5 ∧
     svg_unit_scale_to_mm (K := K) (some " inch ") = 127 / 5 ∧
     svg_unit_scale_to_mm (K := K) (some "cm") = 10 ∧
     svg_unit_scale_to_mm (K := K) (some "centimeter") = 10 ∧
     svg_unit_scale_to_mm (K := K) (some "CENTIMETERS") = 10 ∧
     svg_unit_scale_to_mm (K := K) (some "px") = 127 / 480 ∧
     svg_unit_scale_to_mm (K := K) (some "Pixel") = 127 / 480 ∧
     svg_unit_scale_to_mm (K := K) (some "Pixels") = 127 / 480 ∧
     svg_unit_scale_to_mm (K := K) (some "furlong") = 1 ∧
     svg_unit_scale_to_mm (K := K) (some "") = 1 ∧
     svg_unit_scale_to_mm (K := K) none = 1) ∧
    (dxf_unit_scale_to_mm (K := K) "in" = 127 / 5 ∧
     dxf_unit_scale_to_mm (K := K) "INCHES" = 127 / 5 ∧
     dxf_unit_scale_to_mm (K := K) "mm" = 1 ∧
     dxf_unit_scale_to_mm (K := K) "cm" = 1 ∧
     dxf_unit_scale_to_mm (K := K) "px" = 1 ∧
     dxf_unit_scale_to_mm (K := K) "" = 1) ∧
    (∀ u : String, dxf_unit_scale_to_mm (K := K) u = 1 ∨
       dxf_unit_scale_to_mm (K := K) u = 127 / 5) := by
  refine ⟨?_, ?_,
    ⟨rfl, rfl, rfl, rfl, rfl, rfl, rfl, rfl, rfl, rfl, rfl, rfl, rfl, rfl,
      rfl, rfl⟩,
    ⟨rfl, rfl, rfl, rfl, rfl, rfl⟩, fun u => ?_⟩
  · intro unit
    cases unit with
    | none => rfl
    | some s =>
      by_cases hs : s = ""
      · subst hs; rfl
      · unfold svg_unit_scale_to_mm svg_table_spec
        dsimp only
        rw [if_neg hs]
        simp only [List.mem_cons, List.not_mem_nil, or_false]
  · intro u
    unfold dxf_unit_scale_to_mm dxf_unit_spec
    by_cases hu : u = ""
    · subst hu; rfl
    · rw [if_neg hu]
      by_cases h : startsWithIn (lowerChars (trimChars u.data)) = true
      · rw [if_pos ((startsWithIn_iff_take _).mp h), if_pos h]
      · rw [if_neg (fun hc => h ((startsWithIn_iff_take _).mpr hc)), if_neg h]
  · unfold dxf_unit_scale_to_mm
    split_ifs <;> simp

/-! ## Claim C9 — missing dependency -/

/-- C9: with the parsing dependency unavailable, each loader returns the
empty sequence for every document — the document argument is never
consulted — and the package-level fallbacks do the same, so a missing
dependency is indistinguishable from an unreadable document. -/
theorem C9_missing_dependency :
    (∀ (tr : Trig ℚ) (doc : Option (List (DxfEntity ℚ))) (units : String),
       load_dxf tr false doc units = []) ∧
    (∀ (parse : List Char → Option (SvgPath ℚ))
       (content : Option (List (List (String × String))))
       (mode : Option String), load_svg parse false content mode = []) ∧
    (∀ fn units, pkg_load_dxf (K := ℚ) fn units = []) ∧
    (∀ fp, pkg_load_svg (K := ℚ) fp = []) ∧
    (∀ (tr : Trig ℚ) (doc : Option (List (DxfEntity ℚ))) (units : String),
       load_dxf tr false doc units = load_dxf tr true none units) ∧
    (∀ (parse : List Char → Option (SvgPath ℚ)) content mode,
       load_svg parse false content mode = load_svg parse true none mode) :=
  ⟨fun _ _ _ => rfl, fun _ _ _ => rfl, fun _ _ => rfl, fun _ => rfl,
    fun _ _ _ => rfl, fun _ _ _ => rfl⟩

/-! ## Claims C1 and C2 — output invariants -/

/-- C1: every record either loader emits with `closed = true` has its first
point exactly equal to its last (the loaders append a duplicate of the
first point before scaling when needed, and per-point scaling preserves the
equality). -/
theorem C1_closed_ring :
    (∀ (tr : Trig ℚ) (hasE : Bool) (doc : Option (List (DxfEntity ℚ)))
       (units : String) (rec : PathRec ℚ),
       rec ∈ load_dxf tr hasE doc units → rec.closed = true →
       firstP rec.points = lastP rec.points) ∧
    (∀ (parse : List Char → Option (SvgPath ℚ)) (hasS : Bool)
       (content : Option (List (List (String × String))))
       (mode : Option String) (rec : PathRec ℚ),
       rec ∈ load_svg parse hasS content mode → rec.closed = true →
       firstP rec.points = lastP rec.points) := by
  constructor
  · intro tr hasE doc units rec hmem hcl
    cases hasE with
    | false => simp [load_dxf] at hmem
    | true =>
      cases doc with
      | none => simp [load_dxf] at hmem
      | some es =>
        simp only [load_dxf, List.mem_filterMap] at hmem
        obtain ⟨e, _, he⟩ := hmem
        exact (processEntity_spec _ _ _ _ _ he).2 hcl
  · intro parse hasS content mode rec hmem hcl
    cases hasS with
    | false => simp [load_svg] at hmem
    | true =>
      cases content with
      | none => simp [load_svg] at hmem
      | some elems =>
        simp only [load_svg, List.mem_flatMap] at hmem
        obtain ⟨attrs, _, hin⟩ := hmem
        unfold elemPaths at hin
        cases hd : attrGet attrs "d" with
        | none => rw [hd] at hin; simp at hin
        | some d =>
          rw [hd] at hin
          dsimp only at hin
          by_cases hde : d = ""
          · rw [if_pos hde] at hin; simp at hin
          · rw [if_neg hde] at hin
            simp only [List.mem_filterMap] at hin
            obtain ⟨sub, _, hs⟩ := hin
            exact (processSubpath_spec _ _ _ _ _ hs).2 hcl

/-- Witness for C1: a concrete DXF document and a concrete SVG document
each yield a closed record whose endpoints the theorem proves equal. -/
theorem C1_closed_ring_witness :
    firstP ((load_dxf ratTrig true (some [sampleLoop]) "mm").headD dRec).points =
      lastP ((load_dxf ratTrig true (some [sampleLoop]) "mm").headD dRec).points :=
  C1_closed_ring.1 ratTrig true (some [sampleLoop]) "mm"
    ((load_dxf ratTrig true (some [sampleLoop]) "mm").headD dRec)
    (List.mem_cons_self _ _) rfl

/-- C2: every record either loader emits carries at least two points; an
entity or subpath whose flattening yields fewer than two points is dropped
and contributes no record. -/
theorem C2_min_two_points :
    (∀ (tr : Trig ℚ) (hasE : Bool) (doc : Option (List (DxfEntity ℚ)))
       (units : String) (rec : PathRec ℚ),
       rec ∈ load_dxf tr hasE doc units → 2 ≤ rec.points.length) ∧
    (∀ (parse : List Char → Option (SvgPath ℚ)) (hasS : Bool)
       (content : Option (List (List (String × String))))
       (mode : Option String) (rec : PathRec ℚ),
       rec ∈ load_svg parse hasS content mode → 2 ≤ rec.points.length) ∧
    (∀ (tr : Trig ℚ) (scale tol : ℚ) (e : DxfEntity ℚ),
       (flatten_entity tr e tol).length < 2 →
       processEntity tr scale tol e = none) ∧
    (∀ (parse : List Char → Option (SvgPath ℚ)) (tolmm : ℚ)
       (attrs : List (String × String)) (sub : List Char) (pobj : SvgPath ℚ),
       parse sub = some pobj →
       (flatten_path_points true (some pobj) tolmm).length < 2 →
       processSubpath parse tolmm attrs sub = none) := by
  refine ⟨?_, ?_, ?_, ?_⟩
  · intro tr hasE doc units rec hmem
    cases hasE with
    | false => simp [load_dxf] at hmem
    | true =>
      cases doc with
      | none => simp [load_dxf] at hmem
      | some es =>
        simp only [load_dxf, List.mem_filterMap] at hmem
        obtain ⟨e, _, he⟩ := hmem
        exact (processEntity_spec _ _ _ _ _ he).1
  · intro parse hasS content mode rec hmem
    cases hasS with
    | false => simp [load_svg] at hmem
    | true =>
      cases content with
      | none => simp [load_svg] at hmem
      | some elems =>
        simp only [load_svg, List.mem_flatMap] at hmem
        obtain ⟨attrs, _, hin⟩ := hmem
        unfold elemPaths at hin
        cases hd : attrGet attrs "d" with
        | none => rw [hd] at hin; simp at hin
        | some d =>
          rw [hd] at hin
          dsimp only at hin
          by_cases hde : d = ""
          · rw [if_pos hde] at hin; simp at hin
          · rw [if_neg hde] at hin
            simp only [List.mem_filterMap] at hin
            obtain ⟨sub, _, hs⟩ := hin
            exact (processSubpath_spec _ _ _ _ _ hs).1
  · intro tr scale tol e hlen
    unfold processEntity
    cases hk : e.kind with
    | none => rfl
    | some k =>
      dsimp only
      rw [if_pos hlen]
  · intro parse tolmm attrs sub pobj hp hlen
    unfold processSubpath
    by_cases ht : trimChars sub = []
    · rw [if_pos ht]
    · rw [if_neg ht, hp]
      dsimp only
      by_cases hn : pobj.nSegs = 0
      · rw [if_pos hn]
      · rw [if_neg hn, if_pos hlen]

/-- Witness for C2: the theorem applied to a concrete entity record of each
loader, and to a concrete dropped entity. -/
theorem C2_min_two_points_witness :
    2 ≤ ((load_dxf ratTrig true (some [sampleLoop]) "mm").headD dRec).points.length ∧
      processEntity ratTrig 1 1 sampleBad = none :=
  ⟨C2_min_two_points.1 ratTrig true (some [sampleLoop]) "mm"
      ((load_dxf ratTrig true (some [sampleLoop]) "mm").headD dRec)
      (List.mem_cons_self _ _),
    C2_min_two_points.2.2.1 ratTrig 1 1 sampleBad (by decide)⟩

/-! ## Claim C4 — failure containment -/

/-- C4: an unreadable document yields the empty sequence from either
loader, and a failing entity (DXF), element or subpath (SVG) is skipped
while every sibling is still processed: deleting it from the document does
not change the rest of the output. -/
theorem C4_failure_containment :
    (∀ (tr : Trig ℚ) (units : String), load_dxf tr true none units = []) ∧
    (∀ (parse : List Char → Option (SvgPath ℚ)) (mode : Option String),
       load_svg parse true none mode = []) ∧
    (∀ (tr : Trig ℚ) (units : String) (es₁ es₂ : List (DxfEntity ℚ))
       (e : DxfEntity ℚ),
       processEntity tr (dxf_unit_scale_to_mm units)
         ((1 / 4) / dxf_unit_scale_to_mm units) e = none →
       load_dxf tr true (some (es₁ ++ e :: es₂)) units =
         load_dxf tr true (some (es₁ ++ es₂)) units) ∧
    (∀ (parse : List Char → Option (SvgPath ℚ)) (mode : Option String)
       (xs ys : List (List (String × String))) (x : List (String × String)),
       elemPaths parse (svgTol mode) x = [] →
       load_svg parse true (some (xs ++ x :: ys)) mode =
         load_svg parse true (some (xs ++ ys)) mode) ∧
    (∀ (parse : List Char → Option (SvgPath ℚ)) (tolmm : ℚ)
       (attrs : List (String × String)) (subs₁ subs₂ : List (List Char))
       (sub : List Char),
       processSubpath parse tolmm attrs sub = none →
       (subs₁ ++ sub :: subs₂).filterMap (processSubpath parse tolmm attrs) =
         (subs₁ ++ subs₂).filterMap (processSubpath parse tolmm attrs)) := by
  refine ⟨fun _ _ => rfl, fun _ _ => rfl, ?_, ?_, ?_⟩
  · intro tr units es₁ es₂ e he
    simp only [load_dxf, List.filterMap_append, List.filterMap_cons, he]
  · intro parse mode xs ys x hx
    simp only [load_svg, List.flatMap_append, List.flatMap_cons, hx,
      List.nil_append]
  · intro parse tolmm attrs subs₁ subs₂ sub hs
    simp only [List.filterMap_append, List.filterMap_cons, hs]

/-- Witness for C4: deleting a concrete failing entity from a concrete DXF
document, and a concrete failing subpath from a concrete subpath list,
leaves the siblings' output unchanged. -/
theorem C4_failure_containment_witness :
    load_dxf ratTrig true (some [sampleLoop, sampleBad]) "mm" =
        load_dxf ratTrig true (some [sampleLoop]) "mm" ∧
      ([['M', '0'], []] : List (List Char)).filterMap
          (processSubpath (K := ℚ) (fun _ => none) 1 []) =
        ([['M', '0']] : List (List Char)).filterMap
          (processSubpath (K := ℚ) (fun _ => none) 1 []) := by
  constructor
  · exact C4_failure_containment.2.2.1 ratTrig "mm" [sampleLoop] [] sampleBad rfl
  · exact C4_failure_containment.2.2.2.2 (fun _ => none) 1 [] [['M', '0']] [] [] rfl

/-! ## Claim C6 — spline fallback sampling -/

theorem length_filterMap_all_some {α β : Type} (f : α → Option β)
    (l : List α) (h : ∀ a ∈ l, (f a).isSome) :
    (l.filterMap f).length = l.length := by
  induction l with
  | nil => rfl
  | cons a t ih =>
    have ha := h a (List.mem_cons_self a t)
    cases hf : f a with
    | none => rw [hf] at ha; simp at ha
    | some b =>
      simp only [List.filterMap_cons, hf, List.length_cons]
      rw [ih (fun x hx => h x (List.mem_cons_of_mem a hx))]

theorem filterMap_all_none {α β : Type} (f : α → Option β) (l : List α)
    (h : ∀ a ∈ l, f a = none) : l.filterMap f = [] := by
  induction l with
  | nil => rfl
  | cons a t ih =>
    simp only [List.filterMap_cons, h a (List.mem_cons_self a t)]
    exact ih (fun x hx => h x (List.mem_cons_of_mem a hx))

theorem splineFallback_of_ne_nil (ev : K → Option (Pt K))
    (cps : List (Pt K)) (h : splineSamples ev ≠ []) :
    splineFallback (some ev) cps = splineSamples ev := by
  cases hsp : splineSamples ev with
  | nil => exact absurd hsp h
  | cons q qs =>
    unfold splineFallback
    dsimp only
    rw [hsp]

theorem splineFallback_of_nil (ev : K → Option (Pt K)) (cps : List (Pt K))
    (h : splineSamples ev = []) : splineFallback (some ev) cps = cps := by
  unfold splineFallback
  dsimp only
  rw [h]

/-- Claim C6 is false on the code as stated: with an evaluator that
succeeds everywhere, the spline fallback produces 129 samples, not the
claimed 128 (the loop runs over `range(128 + 1)`). -/
theorem C6_counterexample :
    (splineSamples (K := ℚ) (fun t => some (t, t))).length = 129 ∧
      (splineSamples (K := ℚ) (fun t => some (t, t))).length ≠ 128 := by
  have h : (splineSamples (K := ℚ) (fun t => some (t, t))).length = 129 := by
    unfold splineSamples
    rw [length_filterMap_all_some (fun (i : ℕ) => some (((i : ℚ) / 128), ((i : ℚ) / 128)))
      (List.range (128 + 1)) (fun a _ => rfl)]
    simp
  exact ⟨h, by rw [h]; decide⟩

/-- C6 (amended): the spline fallback evaluates exactly 129 uniform
parameters `i/128`, `i = 0, ..., 128` (inclusive endpoints over `[0,1]`);
a sample whose evaluation raises is skipped without aborting the curve;
every successful sample is kept; only when no sample succeeds is the raw
control-point list returned (which may be empty); and the entity-level
flattening dispatches a SPLINE with no adaptive flattening to exactly this
fallback. -/
theorem C6_spline_amended :
    (∀ (ev : ℚ → Option (Pt ℚ)) (cps : List (Pt ℚ)),
       (∀ i : ℕ, i ≤ 128 → (ev ((i : ℚ) / 128)).isSome) →
       (splineFallback (some ev) cps).length = 129) ∧
    (∀ (ev : ℚ → Option (Pt ℚ)) (cps : List (Pt ℚ)),
       (∀ i : ℕ, i ≤ 128 → ev ((i : ℚ) / 128) = none) →
       splineFallback (some ev) cps = cps) ∧
    (∀ (ev : ℚ → Option (Pt ℚ)) (cps : List (Pt ℚ)) (i : ℕ) (p : Pt ℚ),
       i ≤ 128 → ev ((i : ℚ) / 128) = some p →
       p ∈ splineFallback (some ev) cps) ∧
    (∀ (tr : Trig ℚ) (tol : ℚ) (tool : Option (ℚ → Option (Pt ℚ)))
       (cps : List (Pt ℚ)) (flags : Option ℕ) (ca : Option Bool)
       (lay : Option String) (col : Option ℤ),
       flatten_entity tr ⟨none, some (.spline tool cps), flags, ca, lay, col⟩
         tol = splineFallback tool cps) := by
  refine ⟨?_, ?_, ?_, fun _ _ _ _ _ _ _ _ => rfl⟩
  · intro ev cps h
    have hlen : (splineSamples ev).length = 129 := by
      unfold splineSamples
      rw [length_filterMap_all_some (fun (i : ℕ) => ev ((i : ℚ) / 128))
        (List.range (128 + 1))
        (fun a ha => h a (by have := List.mem_range.mp ha; omega))]
      simp
    have hne : splineSamples ev ≠ [] := by
      intro h0; rw [h0] at hlen; simp at hlen
    rw [splineFallback_of_ne_nil ev cps hne]
    exact hlen
  · intro ev cps h
    exact splineFallback_of_nil ev cps (filterMap_all_none _ _
      (fun a ha => h a (by have := List.mem_range.mp ha; omega)))
  · intro ev cps i p hi hev
    have hp : p ∈ splineSamples ev :=
      List.mem_filterMap.mpr ⟨i, List.mem_range.mpr (by omega), hev⟩
    rw [splineFallback_of_ne_nil ev cps (List.ne_nil_of_mem hp)]
    exact hp

/-- Witness for C6: an everywhere-succeeding evaluator yields 129 points,
and an everywhere-failing evaluator falls back to the control points. -/
theorem C6_spline_amended_witness :
    (splineFallback (some (fun t => some (t, t))) ([] : List (Pt ℚ))).length
        = 129 ∧
      splineFallback (K := ℚ) (some (fun _ => none)) [(1, 2)] = [(1, 2)] :=
  ⟨C6_spline_amended.1 (fun t => some (t, t)) [] (fun _ _ => rfl),
    C6_spline_amended.2.1 (fun _ => none) [(1, 2)] (fun _ _ => rfl)⟩

/-! ## Claim C8 — subpath splitting -/

/-- Whether a fragment begins with a move command. -/
def headIsMove (f : List Char) : Bool :=
  match f with
  | [] => false
  | c :: _ => isMoveChar c

theorem reSplitAux_all_move (s : List Char) :
    ∀ acc : List Char, headIsMove acc = true →
      ∀ f ∈ reSplitMovesAux s acc, headIsMove f = true := by
  induction s with
  | nil =>
    intro acc hacc f hf
    simp only [reSplitMovesAux, List.mem_singleton] at hf
    rw [hf]; exact hacc
  | cons c rest ih =>
    intro acc hacc f hf
    by_cases hc : isMoveChar c = true
    · rw [reSplitMovesAux, if_pos hc] at hf
      rcases List.mem_cons.mp hf with rfl | hf'
      · exact hacc
      · exact ih [c] (by simp [headIsMove, hc]) f hf'
    · rw [reSplitMovesAux, if_neg hc] at hf
      refine ih (acc ++ [c]) ?_ f hf
      cases acc with
      | nil => simp [headIsMove] at hacc
      | cons a t => exact hacc

theorem reSplitAux_tail_move (s : List Char) :
    ∀ acc : List Char, ∀ f ∈ (reSplitMovesAux s acc).tail,
      headIsMove f = true := by
  induction s with
  | nil => intro acc f hf; simp [reSplitMovesAux] at hf
  | cons c rest ih =>
    intro acc f hf
    by_cases hc : isMoveChar c = true
    · rw [reSplitMovesAux, if_pos hc, List.tail_cons] at hf
      exact reSplitAux_all_move rest [c] (by simp [headIsMove, hc]) f hf
    · rw [reSplitMovesAux, if_neg hc] at hf
      exact ih (acc ++ [c]) f hf

theorem reSplitMoves_tail_move (s : List Char) :
    ∀ f ∈ (reSplitMoves s).tail, headIsMove f = true :=
  reSplitAux_tail_move s []

theorem reSplitAux_flatten (s : List Char) :
    ∀ acc : List Char, (reSplitMovesAux s acc).flatten = acc ++ s := by
  induction s with
  | nil => intro acc; simp [reSplitMovesAux]
  | cons c rest ih =>
    intro acc
    by_cases hc : isMoveChar c = true
    · rw [reSplitMovesAux, if_pos hc]
      simp [ih [c]]
    · rw [reSplitMovesAux, if_neg hc]
      simp [ih (acc ++ [c])]

theorem reSplitAux_ne_nil (s : List Char) :
    ∀ acc : List Char, reSplitMovesAux s acc ≠ [] := by
  induction s with
  | nil => intro acc; simp [reSplitMovesAux]
  | cons c rest ih =>
    intro acc
    by_cases hc : isMoveChar c = true
    · rw [reSplitMovesAux, if_pos hc]; simp
    · rw [reSplitMovesAux, if_neg hc]; exact ih (acc ++ [c])

theorem dropWhile_concat_last {p : Char → Bool} (c : Char)
    (hc : p c = false) (l : List Char) :
    ∃ l', (l ++ [c]).dropWhile p = l' ++ [c] := by
  induction l with
  | nil => exact ⟨[], by simp [List.dropWhile, hc]⟩
  | cons a t ih =>
    by_cases ha : p a = true
    · simpa [List.dropWhile_cons, ha] using ih
    · exact ⟨a :: t, by simp [List.dropWhile_cons, ha]⟩

theorem trimChars_cons_not_ws (c : Char) (cs : List Char)
    (hc : c.isWhitespace = false) :
    ∃ l', trimChars (c :: cs) = c :: l' := by
  unfold trimChars
  rw [List.dropWhile_cons, if_neg (by simp [hc])]
  obtain ⟨l', hl'⟩ := dropWhile_concat_last c hc cs.reverse
  rw [List.reverse_cons, hl', List.reverse_append]
  exact ⟨l'.reverse, rfl⟩

theorem trimChars_headIsMove (f : List Char) (h : headIsMove f = true) :
    headIsMove (trimChars f) = true := by
  cases f with
  | nil => simp [headIsMove] at h
  | cons c cs =>
    have hcm : isMoveChar c = true := h
    have hcw : c.isWhitespace = false := by
      rcases (by simpa [isMoveChar, Bool.or_eq_true, decide_eq_true_eq]
        using hcm : c = 'M' ∨ c = 'm') with rfl | rfl <;> decide
    obtain ⟨l', hl'⟩ := trimChars_cons_not_ws c cs hcw
    rw [hl']
    exact hcm

/-- Claim C8 is false on the code as stated: on input `"L10 M20"` the
splitter returns the fragments in order and discards nothing, but the first
returned fragment `"L10"` does not begin with a move command. -/
theorem C8_counterexample :
    split_path_by_moves "L10 M20".data =
        [['L', '1', '0'], ['M', '2', '0']] ∧
      headIsMove ['L', '1', '0'] = false := by
  constructor
  · rfl
  · rfl

/-- C8 (amended): the splitter cuts the stripped command string at every
boundary directly before an `M` or `m` (concatenating the raw fragments
restores the stripped input), returns the stripped fragments in order with
whitespace-only fragments discarded (every returned fragment is
non-empty), and every returned fragment other than possibly the first
begins with its own move command; when the stripped input itself begins
with a move command, every returned fragment does. -/
theorem C8_split_amended :
    (∀ d : List Char, ∀ f ∈ split_path_by_moves d, f ≠ []) ∧
    (∀ d : List Char, ∀ f ∈ (split_path_by_moves d).tail,
       headIsMove f = true) ∧
    (∀ d : List Char, headIsMove (trimChars d) = true →
       ∀ f ∈ split_path_by_moves d, headIsMove f = true) ∧
    (∀ d : List Char, (reSplitMoves (trimChars d)).flatten = trimChars d) := by
  refine ⟨?_, ?_, ?_, fun d => reSplitAux_flatten (trimChars d) []⟩
  · intro d f hf
    cases d with
    | nil => simp [split_path_by_moves] at hf
    | cons c cs =>
      rw [split_path_by_moves, if_neg (by simp)] at hf
      exact of_decide_eq_true (List.mem_filter.mp hf).2
  · intro d f hf
    cases d with
    | nil => simp [split_path_by_moves] at hf
    | cons c cs =>
      rw [split_path_by_moves, if_neg (by simp)] at hf
      cases hparts : reSplitMoves (trimChars (c :: cs)) with
      | nil => exact absurd hparts (reSplitAux_ne_nil _ _)
      | cons p0 prest =>
        rw [hparts, List.map_cons] at hf
        have hrest : ∀ g ∈ prest, headIsMove g = true := by
          intro g hg
          have hh := reSplitMoves_tail_move (trimChars (c :: cs))
          rw [hparts] at hh
          exact hh g hg
        have hf' : f ∈ (List.map trimChars prest).filter (fun p => p ≠ []) := by
          rw [List.filter_cons] at hf
          by_cases hp0 : trimChars p0 ≠ []
          · rw [if_pos (decide_eq_true hp0), List.tail_cons] at hf
            exact hf
          · rw [if_neg (by simpa using hp0)] at hf
            exact List.tail_subset _ hf
        obtain ⟨g, hg, rfl⟩ := by
          have := (List.mem_filter.mp hf').1
          exact List.mem_map.mp this
        exact trimChars_headIsMove g (hrest g hg)
  · intro d hmove f hf
    cases d with
    | nil => simp [split_path_by_moves] at hf
    | cons c cs =>
      rw [split_path_by_moves, if_neg (by simp)] at hf
      cases hd : trimChars (c :: cs) with
      | nil => rw [hd] at hmove; simp [headIsMove] at hmove
      | cons c0 cs0 =>
        rw [hd] at hmove hf
        have hc0 : isMoveChar c0 = true := hmove
        rw [reSplitMoves, reSplitMovesAux, if_pos hc0] at hf
        have hall : ∀ g ∈ reSplitMovesAux cs0 [c0], headIsMove g = true :=
          reSplitAux_all_move cs0 [c0] (by simp [headIsMove, hc0])
        rw [List.map_cons, List.filter_cons] at hf
        have hf' : f ∈ (List.map trimChars (reSplitMovesAux cs0 [c0])).filter
            (fun p => p ≠ []) := by
          have htriv : trimChars ([] : List Char) = [] := rfl
          rw [htriv, if_neg (by simp)] at hf
          exact hf
        obtain ⟨g, hg, rfl⟩ := List.mem_map.mp (List.mem_filter.mp hf').1
        exact trimChars_headIsMove g (hall g hg)

/-- Witness for C8: on the concrete input `"M1 m2"` the amended theorem
yields a non-empty first fragment and a move-command-initial second
fragment. -/
theorem C8_split_amended_witness :
    (['M', '1'] : List Char) ≠ [] ∧ headIsMove ['m', '2'] = true :=
  ⟨C8_split_amended.1 "M1 m2".data ['M', '1'] (by decide),
    C8_split_amended.2.1 "M1 m2".data ['m', '2'] (by decide)⟩

/-! ## Claim C10 — zero-sweep arc -/

theorem pyTrunc_zero [FloorRing K] : pyTrunc (0 : K) = 0 := by
  unfold pyTrunc
  rw [if_pos le_rfl]
  exact Int.floor_zero

theorem getLastD_replicate {α : Type} (a : α) (n : ℕ) :
    ∀ d : α, (List.replicate (n + 1) a).getLastD d = a := by
  induction n with
  | zero => intro d; rfl
  | succ m ih =>
    intro d
    rw [List.replicate_succ, List.getLastD_cons]
    exact ih a

theorem firstP_replicate (n : ℕ) (a : Pt K) :
    firstP (List.replicate (n + 1) a) = a := by
  rw [List.replicate_succ]; rfl

theorem lastP_replicate (n : ℕ) (a : Pt K) :
    lastP (List.replicate (n + 1) a) = a :=
  getLastD_replicate a n (0, 0)

/-- A zero-sweep arc (`end_angle = start_angle`): the normalization adds
nothing, `n = max(12, int(0)) = 12`, and all 13 inclusive samples sit at
the start angle. -/
theorem arcSamples_zero_sweep [FloorRing K] (tr : Trig K) (c : Pt K)
    (r a1 tol : K) :
    arcSamples tr c r a1 a1 tol =
      List.replicate 13
        (c.1 + r * tr.cos (a1 * tr.pi / 180),
          c.2 + r * tr.sin (a1 * tr.pi / 180)) := by
  unfold arcSamples
  simp only [lt_self_iff_false, if_false, sub_self, zero_div, pyTrunc_zero,
    zero_mul, add_zero]
  norm_num
  decide

/-- C10: a DXF ARC whose end angle equals its start angle and whose
adaptive flattening is unavailable flattens to 13 pairwise-identical
points at the start angle, is not dropped, and is classified closed by the
first-equals-last geometric test. -/
theorem C10_zero_sweep_arc {K : Type} [LinearOrderedField K] [FloorRing K]
    [DecidableEq K] (tr : Trig K) (c : Pt K) (r a1 tol scale : K)
    (flags : Option ℕ) (ca : Option Bool) (lay : Option String)
    (col : Option ℤ) :
    flatten_entity tr ⟨none, some (.arc c r a1 a1), flags, ca, lay, col⟩ tol =
        List.replicate 13
          (c.1 + r * tr.cos (a1 * tr.pi / 180),
            c.2 + r * tr.sin (a1 * tr.pi / 180)) ∧
      flatten_entity tr ⟨some [], some (.arc c r a1 a1), flags, ca, lay, col⟩
          tol =
        List.replicate 13
          (c.1 + r * tr.cos (a1 * tr.pi / 180),
            c.2 + r * tr.sin (a1 * tr.pi / 180)) ∧
      ∃ rec : PathRec K,
        processEntity tr scale tol
            ⟨none, some (.arc c r a1 a1), flags, ca, lay, col⟩ = some rec ∧
          rec.closed = true ∧
          rec.points = List.replicate 13
            ((c.1 + r * tr.cos (a1 * tr.pi / 180)) * scale,
              (c.2 + r * tr.sin (a1 * tr.pi / 180)) * scale) := by
  set P : Pt K := (c.1 + r * tr.cos (a1 * tr.pi / 180),
    c.2 + r * tr.sin (a1 * tr.pi / 180)) with hP
  have hf : flatten_entity tr
      ⟨none, some (.arc c r a1 a1), flags, ca, lay, col⟩ tol =
      List.replicate 13 P :=
    arcSamples_zero_sweep tr c r a1 tol
  have hf2 : flatten_entity tr
      ⟨some [], some (.arc c r a1 a1), flags, ca, lay, col⟩ tol =
      List.replicate 13 P :=
    arcSamples_zero_sweep tr c r a1 tol
  refine ⟨hf, hf2, ?_⟩
  have hcls : classifyDxf (K := K) flags ca "ARC" (List.replicate 13 P) =
      (true, List.replicate 13 P) := by
    unfold classifyDxf
    rw [if_neg (by decide), if_neg (by decide), if_neg (by decide)]
    have h1 : firstP (List.replicate 13 P) = P := firstP_replicate 12 P
    have h2 : lastP (List.replicate 13 P) = P := lastP_replicate 12 P
    rw [h1, h2]
    simp
  unfold processEntity
  dsimp only
  have hks : kindStr (.arc c r a1 a1 : DxfKind K) = "ARC" := rfl
  rw [hf, if_neg (by simp), hks, hcls]
  refine ⟨_, rfl, rfl, ?_⟩
  simp [List.map_replicate]

/-! ## Claim C7 — SVG closure decision -/

theorem svgClosedFlag_iff [DecidableEq K] (sub : List Char)
    (ic : Option Bool) (pts : List (Pt K)) (h2 : 2 ≤ pts.length) :
    (svgClosedFlag sub ic pts = true ↔
      (endsWithZ sub = true ∨ ic = some true ∨
        (ic = none ∧ |(firstP pts).1 - (lastP pts).1| < 1 / 1000000 ∧
          |(firstP pts).2 - (lastP pts).2| < 1 / 1000000))) := by
  unfold svgClosedFlag
  by_cases hz : endsWithZ sub = true
  · rw [if_pos hz]
    simp [hz]
  · rw [if_neg hz]
    cases ic with
    | some b =>
      cases b <;> simp [hz]
    | none =>
      rw [decide_eq_true_eq]
      constructor
      · rintro ⟨_, hx, hy⟩
        exact Or.inr (Or.inr ⟨rfl, hx, hy⟩)
      · rintro (hzz | hct | ⟨_, hx, hy⟩)
        · exact absurd hzz hz
        · exact absurd hct (by simp)
        · exact ⟨h2, hx, hy⟩

/-- C7: a record emitted for an SVG subpath is closed exactly when the
subpath's command string ends with a close-path command
(case-insensitively), or the parsed curve reports itself closed, or — as
fallback, only when `isclosed()` raises — the first and last flattened
points coincide within absolute tolerance 1e-6 in both coordinates. -/
theorem C7_svg_closed_rule {K : Type} [LinearOrderedField K] [FloorRing K]
    [DecidableEq K] (parse : List Char → Option (SvgPath K)) (tolmm : K)
    (attrs : List (String × String)) (sub : List Char) (pobj : SvgPath K)
    (rec : PathRec K) (hp : parse sub = some pobj)
    (h : processSubpath parse tolmm attrs sub = some rec) :
    (rec.closed = true ↔
      (endsWithZ sub = true ∨ pobj.isclosed = some true ∨
        (pobj.isclosed = none ∧
          |(firstP (flatten_path_points true (some pobj) tolmm)).1 -
              (lastP (flatten_path_points true (some pobj) tolmm)).1|
            < 1 / 1000000 ∧
          |(firstP (flatten_path_points true (some pobj) tolmm)).2 -
              (lastP (flatten_path_points true (some pobj) tolmm)).2|
            < 1 / 1000000))) := by
  unfold processSubpath at h
  by_cases ht : trimChars sub = []
  · rw [if_pos ht] at h; exact absurd h (by simp)
  · rw [if_neg ht, hp] at h
    dsimp only at h
    by_cases hn : pobj.nSegs = 0
    · rw [if_pos hn] at h; exact absurd h (by simp)
    · rw [if_neg hn] at h
      by_cases hlen : (flatten_path_points true (some pobj) tolmm).length < 2
      · rw [if_pos hlen] at h; exact absurd h (by simp)
      · rw [if_neg hlen] at h
        push_neg at hlen
        obtain rfl := (Option.some.inj h).symm
        exact svgClosedFlag_iff sub pobj.isclosed _ hlen

/-- Concrete SVG path object for the C7 witness: one segment, length
estimate 1, an evaluator that never raises, `isclosed()` returning
`False`. -/
def pobj0 : SvgPath ℚ := ⟨1, some 1, fun t => some (t, 0), some false⟩

/-- Concrete subpath command string for the C7 witness. -/
def sub0 : List Char := "M0 L1".data

theorem flatten_pobj0_eval :
    flatten_path_points true (some pobj0) (1 : ℚ) =
      (List.range (64 + 1)).filterMap
        (fun (i : ℕ) => some ((i : ℚ) / ((64 : ℕ) : ℚ), (0 : ℚ))) := by
  unfold flatten_path_points
  dsimp only [pobj0]
  have hm : max (1 : ℚ) (1 / 1000) = 1 := max_eq_left (by norm_num)
  rw [hm]
  have hd : (1 : ℚ) * 1 / 1 = 1 := by norm_num
  rw [hd]
  have hp1 : pyTrunc (1 : ℚ) = 1 := by
    unfold pyTrunc
    rw [if_pos (by norm_num)]
    exact Int.floor_one
  rw [hp1]
  rfl

/-- Concrete record the C7 witness's subpath assembles to. -/
def rec0 : PathRec ℚ :=
  ⟨((List.range (64 + 1)).filterMap
      (fun (i : ℕ) => some ((i : ℚ) / ((64 : ℕ) : ℚ), (0 : ℚ)))).map
    (fun q => (q.1 * svg_unit_scale_to_mm (K := ℚ) (some "px"),
      q.2 * svg_unit_scale_to_mm (K := ℚ) (some "px"))),
    false, none, none, "svg"⟩

/-- Witness for C7: on a concrete subpath with `isclosed() = False` and no
trailing close command, the rule yields `closed = false`. -/
theorem C7_svg_closed_rule_witness :
    rec0.closed = true ↔
      (endsWithZ sub0 = true ∨ pobj0.isclosed = some true ∨
        (pobj0.isclosed = none ∧
          |(firstP (flatten_path_points true (some pobj0) (1 : ℚ))).1 -
              (lastP (flatten_path_points true (some pobj0) (1 : ℚ))).1|
            < 1 / 1000000 ∧
          |(firstP (flatten_path_points true (some pobj0) (1 : ℚ))).2 -
              (lastP (flatten_path_points true (some pobj0) (1 : ℚ))).2|
            < 1 / 1000000)) :=
  C7_svg_closed_rule (fun _ => some pobj0) 1 [] sub0 pobj0 rec0 rfl (by
    unfold processSubpath
    rw [if_neg (show ¬ trimChars sub0 = [] by decide)]
    dsimp only
    rw [flatten_pobj0_eval]
    rfl)

/-! ## Claim C5 — circle fallback -/

theorem circleSamples_length (tr : Trig K) (c : Pt K) (r : K) :
    (circleSamples tr c r).length = 65 := by
  simp [circleSamples]

/-- Claim C5 is false on the code as stated: the circle fallback produces
65 uniform samples (the loop runs over `range(64 + 1)`), not the claimed
64. -/
theorem C5_counterexample :
    (circleSamples realTrig ((0 : ℝ), 0) 10).length = 65 ∧
      (circleSamples realTrig ((0 : ℝ), 0) 10).length ≠ 64 := by
  refine ⟨circleSamples_length _ _ _, ?_⟩
  rw [circleSamples_length]
  decide

theorem circle00_firstP :
    firstP (circleSamples realTrig ((0 : ℝ), 0) 10) = (10, 0) := by
  unfold circleSamples
  rw [List.range_succ_eq_map, List.map_cons]
  show ((0 : ℝ) + 10 * realTrig.cos (2 * realTrig.pi * ((0 : ℕ) : ℝ) / 64),
    (0 : ℝ) + 10 * realTrig.sin (2 * realTrig.pi * ((0 : ℕ) : ℝ) / 64)) = _
  unfold realTrig
  norm_num

theorem circle00_lastP :
    lastP (circleSamples realTrig ((0 : ℝ), 0) 10) = (10, 0) := by
  unfold circleSamples
  rw [List.range_succ, List.map_append]
  show lastP (_ ++ [((0 : ℝ) + 10 * realTrig.cos (2 * realTrig.pi * ((64 : ℕ) : ℝ) / 64),
    (0 : ℝ) + 10 * realTrig.sin (2 * realTrig.pi * ((64 : ℕ) : ℝ) / 64))]) = _
  rw [lastP_append_single]
  have h2pi : 2 * realTrig.pi * ((64 : ℕ) : ℝ) / 64 = 2 * Real.pi := by
    unfold realTrig
    push_cast
    ring
  rw [h2pi]
  unfold realTrig
  norm_num [Real.cos_two_pi, Real.sin_two_pi]

/-- C5 (amended, exact-arithmetic model): the circle fallback produces 65
uniform samples — 64 steps over a full revolution with inclusive endpoints
— whether the adaptive flattening raised or returned empty; on a circle of
center (0,0) and radius 10 the last sample already equals the first, so no
closing duplicate is appended and the emitted Path has exactly 65 points,
`closed = true`, equal first and last points, and every point at distance
10 from the center. -/
theorem C5_circle_amended :
    (∀ tol : ℝ, flatten_entity realTrig
        ⟨none, some (.circle ((0 : ℝ), 0) 10), none, none, none, none⟩ tol =
        circleSamples realTrig ((0 : ℝ), 0) 10) ∧
    (∀ tol : ℝ, flatten_entity realTrig
        ⟨some [], some (.circle ((0 : ℝ), 0) 10), none, none, none, none⟩ tol =
        circleSamples realTrig ((0 : ℝ), 0) 10) ∧
    ∃ rec : PathRec ℝ,
      load_dxf realTrig true
          (some [⟨none, some (.circle ((0 : ℝ), 0) 10), none, none, none,
            none⟩]) "mm" = [rec] ∧
        rec.closed = true ∧
        rec.points.length = 65 ∧
        firstP rec.points = lastP rec.points ∧
        rec.points.map (fun p => p.1 ^ 2 + p.2 ^ 2) =
          List.replicate 65 100 := by
  refine ⟨fun _ => rfl, fun _ => rfl, ?_⟩
  have hfl : firstP (circleSamples realTrig ((0 : ℝ), 0) 10) =
      lastP (circleSamples realTrig ((0 : ℝ), 0) 10) := by
    rw [circle00_firstP, circle00_lastP]
  have hlen65 : (circleSamples realTrig ((0 : ℝ), 0) 10).length = 65 :=
    circleSamples_length _ _ _
  have hne : circleSamples realTrig ((0 : ℝ), 0) 10 ≠ [] := by
    intro h0; rw [h0] at hlen65; simp at hlen65
  have hcls : classifyDxf (K := ℝ) none none "CIRCLE"
      (circleSamples realTrig ((0 : ℝ), 0) 10) =
      (true, circleSamples realTrig ((0 : ℝ), 0) 10) := by
    unfold classifyDxf
    rw [if_pos (Or.inl rfl), forceClose, if_neg (fun hc => hc.2 hfl)]
  have hpe : processEntity realTrig (dxf_unit_scale_to_mm "mm")
      ((1 / 4) / dxf_unit_scale_to_mm "mm")
      ⟨none, some (.circle ((0 : ℝ), 0) 10), none, none, none, none⟩ =
      some ⟨(circleSamples realTrig ((0 : ℝ), 0) 10).map
          (fun q => (q.1 * dxf_unit_scale_to_mm (K := ℝ) "mm",
            q.2 * dxf_unit_scale_to_mm (K := ℝ) "mm")),
        true, some "0", none, "dxf"⟩ := by
    unfold processEntity
    dsimp only
    have hflat : flatten_entity realTrig
        ⟨none, some (.circle ((0 : ℝ), 0) 10), none, none, none, none⟩
        ((1 / 4) / dxf_unit_scale_to_mm (K := ℝ) "mm") =
        circleSamples realTrig ((0 : ℝ), 0) 10 := rfl
    rw [hflat, if_neg (by rw [hlen65]; norm_num)]
    have hks : kindStr (.circle ((0 : ℝ), 0) 10 : DxfKind ℝ) = "CIRCLE" := rfl
    rw [hks, hcls]
  refine ⟨⟨(circleSamples realTrig ((0 : ℝ), 0) 10).map
      (fun q => (q.1 * dxf_unit_scale_to_mm (K := ℝ) "mm",
        q.2 * dxf_unit_scale_to_mm (K := ℝ) "mm")),
    true, some "0", none, "dxf"⟩, ?_, rfl, ?_, ?_, ?_⟩
  · unfold load_dxf
    dsimp only
    rw [List.filterMap_cons, hpe]
    rfl
  · dsimp only
    rw [List.length_map]
    exact hlen65
  · dsimp only
    rw [firstP_map _ _ hne, lastP_map _ _ hne, hfl]
  · dsimp only
    refine List.eq_replicate_iff.mpr
      ⟨by simp only [List.length_map]; exact hlen65, ?_⟩
    intro b hb
    obtain ⟨p, hp, rfl⟩ := List.mem_map.mp hb
    obtain ⟨q, hq, rfl⟩ := List.mem_map.mp hp
    unfold circleSamples at hq
    obtain ⟨i, -, rfl⟩ := List.mem_map.mp hq
    have hs : dxf_unit_scale_to_mm (K := ℝ) "mm" = 1 := rfl
    dsimp only [realTrig]
    rw [hs]
    have htrig := Real.sin_sq_add_cos_sq (2 * Real.pi * (i : ℝ) / 64)
    nlinarith [htrig]

end FireBridge
